import Mathlib

/-!
# Verification of the `comradevpn/tunnel` peer manager

A shallow embedding of the peer-manager core of the repository
(`internal/manager/peers.go`, `internal/manager/internal.go`,
`internal/manager/events.go`) together with models of its collaborators
(storage, IPv4 pool, WireGuard interface, event log).  Collaborators are
not part of the sources; they are modelled from their interface contract
stated in the specification (§6), with fault-injection flags so that the
manager's error paths can be exercised.

Machine integers: WireGuard link counters are Go `uint64` values and the
cumulative statistics are Go `int64`; both are modelled as `Nat`/`Int`
with explicit wrap-around (`% 2^64`) where the Go arithmetic wraps.
Nil-pointer dereferences (Go panics) are modelled by functions returning
`Option`, where `none` is a crash.
-/

namespace Tunnel

/-- 64-bit word modulus. -/
def w64 : Nat := 18446744073709551616

/-- Signed 64-bit bound, `2^63`. -/
def w63 : Nat := 9223372036854775808

/-- Go `uint64` subtraction `a - b` (wrap-around modulo `2^64`). -/
def u64sub (a b : Nat) : Nat :=
  (a % w64 + (w64 - b % w64)) % w64

/-- Reading a Go `uint64` value as `int64` (the `int64(x)` conversion):
two's-complement reinterpretation. -/
def u64toI64 (a : Nat) : Int :=
  if a % w64 < w63 then ((a % w64 : Nat) : Int)
  else ((a % w64 : Nat) : Int) - (w64 : Int)

/-- Go `int64` addition with two's-complement wrap-around. -/
def i64add (a b : Int) : Int :=
  ((a + b + (w63 : Int)) % (w64 : Int)) - (w63 : Int)

/-- Go `int64` subtraction with two's-complement wrap-around. -/
def i64sub (a b : Int) : Int :=
  ((a - b + (w63 : Int)) % (w64 : Int)) - (w63 : Int)

/-- IPv4 addresses, abstracted as naturals (`types.IPv4` carries no
structure that the manager inspects beyond equality). -/
abbrev IPv4 := Nat

/-- WireGuard public keys (Go `string`). -/
abbrev PubKey := String

/-- `types.PeerIdentifiers`: the externally meaningful identifier tuple.
Modelled from the spec: the `internal/types` package is not among the
sources; fields are optional strings per §3. -/
structure PeerIdentifiers where
  UserId : Option String
  InstallationId : Option String
  SessionId : Option String
deriving DecidableEq, Repr

/-- `types.PeerInfo`: the record of one tunnel client.  Modelled from the
spec (§3): the `internal/types` package is not among the sources.  The
embedded `PeerIdentifiers` fields are inlined, as Go promotes them.
Timestamps are unix seconds (`Int`); byte counters are `int64` values. -/
structure PeerInfo where
  ID : Int := 0
  UserId : Option String := none
  InstallationId : Option String := none
  SessionId : Option String := none
  WireguardPublicKey : Option PubKey := none
  Ipv4 : Option IPv4 := none
  NetworkPolicy : Nat := 0
  Expires : Option Int := none
  Created : Option Int := none
  Updated : Option Int := none
  Upstream : Option Int := none
  Downstream : Option Int := none
deriving DecidableEq, Repr

instance : Inhabited PeerInfo := ⟨{}⟩

/-- `PeerInfo.Expired()`.  Modelled from the spec: "peer is expired iff
`expires` set and in the past" (§3); `now` is the current unix time. -/
def PeerInfo.Expired (p : PeerInfo) (now : Int) : Bool :=
  match p.Expires with
  | none => false
  | some e => e < now

/-- `PeerInfo.GetNetworkPolicy()`: the enumerated policy class.  Modelled
from the spec; the manager only passes it through to the pool. -/
def PeerInfo.GetNetworkPolicy (p : PeerInfo) : Nat :=
  p.NetworkPolicy

/-- The error taxonomy of `pkg/xerror` plus collaborator errors (§7). -/
inductive Err where
  | Unavailable : String → Err
  | InvalidArgument : String → Err
  | EntryNotFound : String → Err
  | InternalError : String → Err
  /-- `ippool.ErrNotInRange`. -/
  | NotInRange
  /-- The pool refuses to reserve an address already reserved. -/
  | AlreadyReserved
  /-- The pool has no free address. -/
  | PoolExhausted
  /-- Releasing an address that is not reserved. -/
  | NotReserved
  /-- Injected storage failure. -/
  | StorageError
  /-- Injected WireGuard failure. -/
  | WgError
deriving DecidableEq, Repr

instance {α : Type} [DecidableEq α] : DecidableEq (Except Err α)
  | Except.ok a, Except.ok b =>
    if h : a = b then isTrue (by rw [h])
    else isFalse (fun hc => h (Except.ok.inj hc))
  | Except.error a, Except.error b =>
    if h : a = b then isTrue (by rw [h])
    else isFalse (fun hc => h (Except.error.inj hc))
  | Except.ok _, Except.error _ => isFalse Except.noConfusion
  | Except.error _, Except.ok _ => isFalse Except.noConfusion

/-- Fault-injection switches for collaborator calls, so that theorems can
quantify over the failure behaviours the manager must tolerate. -/
structure Faults where
  storageCreateFails : Bool := false
  storageUpdateFails : Bool := false
  storageDeleteFails : Bool := false
  storageSearchFails : Bool := false
  /-- keys for which `wireguard.SetPeer` fails -/
  wgSetFailKeys : List PubKey := []
  /-- keys for which `wireguard.UnsetPeer` fails -/
  wgUnsetFailKeys : List PubKey := []
deriving DecidableEq, Repr

/-- A query matches a row when every identifier field that is set in the
query equals the row's field.  Modelled from the spec: "non-nil matches
on set identifier fields" (§6). -/
def matchesQuery (q row : PeerInfo) : Bool :=
  (match q.UserId with
   | none => true
   | some v => row.UserId == some v) &&
  (match q.InstallationId with
   | none => true
   | some v => row.InstallationId == some v) &&
  (match q.SessionId with
   | none => true
   | some v => row.SessionId == some v)

/-- The persistent peer store.  Modelled from the spec (§6): rows keyed by
a monotonically assigned positive id; `nextId` is the id the next create
receives.  Rows are an association list with distinct keys. -/
structure Storage where
  rows : List (Int × PeerInfo) := []
  nextId : Int := 1
deriving DecidableEq, Repr

namespace Storage

/-- `storage.CreatePeer(peer) → id`.  Modelled from the spec: stores the
record under a fresh id and returns the id. -/
def CreatePeer (f : Faults) (st : Storage) (p : PeerInfo) :
    Except Err (Int × Storage) :=
  if f.storageCreateFails then Except.error Err.StorageError
  else
    let id := st.nextId
    Except.ok (id, ⟨(id, { p with ID := id }) :: st.rows, st.nextId + 1⟩)

/-- `storage.UpdatePeer(peer) → id`.  Modelled from the spec: replaces the
row with id `p.ID` and returns that id; updating an absent row fails. -/
def UpdatePeer (f : Faults) (st : Storage) (p : PeerInfo) :
    Except Err (Int × Storage) :=
  if f.storageUpdateFails then Except.error Err.StorageError
  else if (st.rows.lookup p.ID).isSome then
    Except.ok (p.ID,
      ⟨st.rows.map (fun kv => if kv.1 = p.ID then (p.ID, p) else kv),
       st.nextId⟩)
  else Except.error (Err.EntryNotFound "peer not found")

/-- `storage.DeletePeer(id)`.  Modelled from the spec: removes the row if
present; deleting an absent row is not an error. -/
def DeletePeer (f : Faults) (st : Storage) (id : Int) : Except Err Storage :=
  if f.storageDeleteFails then Except.error Err.StorageError
  else Except.ok ⟨st.rows.filter (fun kv => kv.1 ≠ id), st.nextId⟩

/-- `storage.GetPeer(id)`.  Modelled from the spec: a peer once created is
retrievable by id until deleted. -/
def GetPeer (st : Storage) (id : Int) : Except Err PeerInfo :=
  match st.rows.lookup id with
  | some p => Except.ok p
  | none => Except.error (Err.EntryNotFound "peer not found")

/-- `storage.SearchPeers(query)`.  Modelled from the spec: nil query
returns all rows; a non-nil query matches on its set identifier fields. -/
def SearchPeers (f : Faults) (st : Storage) (q : Option PeerInfo) :
    Except Err (List PeerInfo) :=
  if f.storageSearchFails then Except.error Err.StorageError
  else
    match q with
    | none => Except.ok (st.rows.map Prod.snd)
    | some qq => Except.ok ((st.rows.map Prod.snd).filter (matchesQuery qq))

end Storage

/-- The IPv4 address manager (`pkg/ippool`, "ip4am").  Modelled from the
spec (§6): it reserves/releases addresses of a fixed range.  `range` is
the list of addresses the pool may hand out, in allocation order. -/
structure IPPool where
  range : List IPv4 := []
  reserved : List IPv4 := []
deriving DecidableEq, Repr

namespace IPPool

/-- `ip4am.Alloc(policy)`.  Modelled from the spec: returns the first free
in-range address, or fails when the pool is exhausted.  The policy is
accepted but does not influence this model. -/
def Alloc (pool : IPPool) (_policy : Nat) : Except Err (IPv4 × IPPool) :=
  match pool.range.find? (fun ip => !pool.reserved.contains ip) with
  | none => Except.error Err.PoolExhausted
  | some ip => Except.ok (ip, { pool with reserved := ip :: pool.reserved })

/-- `ip4am.Set(ip, policy)`: reserve a specific address.  Modelled from
the spec and the source comment "Check if IP can be used": fails with
`ErrNotInRange` outside the range and refuses an already-reserved
address (ipv4 is unique across live peers, §3 invariant 2). -/
def Set (pool : IPPool) (ip : IPv4) (_policy : Nat) : Except Err IPPool :=
  if !pool.range.contains ip then Except.error Err.NotInRange
  else if pool.reserved.contains ip then Except.error Err.AlreadyReserved
  else Except.ok { pool with reserved := ip :: pool.reserved }

/-- `ip4am.Unset(ip)`: release an address.  Modelled from the spec; it
reports an error for an address that was not reserved, but the release
itself is unconditional (first component is the resulting pool). -/
def Unset (pool : IPPool) (ip : IPv4) : IPPool × Option Err :=
  ({ pool with reserved := pool.reserved.filter (fun x => x ≠ ip) },
   if pool.reserved.contains ip then none else some Err.NotReserved)

end IPPool

/-- The WireGuard interface.  Modelled from the spec (§6): the set of
peer entries keyed by public key; configuration details beyond the key
are not observed by any claim. -/
structure Wireguard where
  peers : List PubKey := []
deriving DecidableEq, Repr

namespace Wireguard

/-- `wireguard.SetPeer(peer)`: add or overwrite the entry for the peer's
public key.  Modelled from the spec; a peer without a public key is
rejected, and injected faults make the call fail without effect. -/
def SetPeer (f : Faults) (wg : Wireguard) (p : PeerInfo) :
    Except Err Wireguard :=
  match p.WireguardPublicKey with
  | none => Except.error Err.WgError
  | some k =>
    if f.wgSetFailKeys.contains k then Except.error Err.WgError
    else Except.ok ⟨k :: wg.peers.filter (fun x => x ≠ k)⟩

/-- `wireguard.UnsetPeer(peer)`: remove the entry for the peer's public
key.  Modelled from the spec; injected faults fail without effect. -/
def UnsetPeer (f : Faults) (wg : Wireguard) (p : PeerInfo) :
    Except Err Wireguard :=
  match p.WireguardPublicKey with
  | none => Except.error Err.WgError
  | some k =>
    if f.wgUnsetFailKeys.contains k then Except.error Err.WgError
    else Except.ok ⟨wg.peers.filter (fun x => x ≠ k)⟩

end Wireguard

/-- The four event types the core emits (`proto.EventType`). -/
inductive EventType where
  | PeerAdd
  | PeerUpdate
  | PeerRemove
  | PeerTraffic
deriving DecidableEq, Repr

/-- One pushed event.  The event log (`eventlog.EventManager`) is
modelled from the spec as an append-only sink; the wall-clock timestamp
argument is not modelled (no claim mentions it), and push failures are
logged and swallowed by every caller, so `push` always appends. -/
structure Event where
  etype : EventType
  peer : PeerInfo
deriving DecidableEq, Repr

/-- The state a `Manager` value closes over: the three subsystems, the
event sink, and the atomic `running` flag.  The mutex is not modelled
(the embedding is sequential). -/
structure ManagerState where
  storage : Storage := {}
  pool : IPPool := {}
  wg : Wireguard := {}
  events : List Event := []
  running : Bool := true
deriving DecidableEq, Repr

/-- `eventLog.Push`: append an event (push errors are logged and
swallowed by every caller in the manager). -/
def pushEvent (st : ManagerState) (t : EventType) (p : PeerInfo) :
    ManagerState :=
  { st with events := st.events ++ [⟨t, p⟩] }

/-- Result of a manager operation: the final state, the final value of
the caller's `*info` record (the manager mutates it in place), and the
returned error, if any. -/
structure OpResult where
  st : ManagerState
  peer : PeerInfo
  err : Option Err
deriving DecidableEq, Repr

/-- The first non-nil error of a list, as the closure at the end of
`unsetPeer` computes it. -/
def firstErr : List (Option Err) → Option Err
  | [] => none
  | some e :: _ => some e
  | none :: rest => firstErr rest

/-- The error component of an `Except` result. -/
def exceptErr {α : Type} : Except Err α → Option Err
  | Except.ok _ => none
  | Except.error e => some e

/-- The state component of an `Except` result, with the unchanged state
`d` when the call failed. -/
def exceptState {α : Type} (d : α) : Except Err α → α
  | Except.ok a => a
  | Except.error _ => d

namespace Manager

/-- `Manager.unsetPeer` (internal.go:61-81): delete the storage row,
remove the WireGuard entry, release the pool address — all three
unconditionally — push `PeerRemove`, and return the first non-nil error
of `(errManager, errPool, errWireguard)`.  `none` models the Go panic on
`*peer.Ipv4` when the peer has no address (in which case the storage and
WireGuard removals have happened before the crash; the crash discards
the whole run). -/
def unsetPeer (f : Faults) (st : ManagerState) (peer : PeerInfo) :
    Option OpResult :=
  match peer.Ipv4 with
  | none => none
  | some ip =>
    let delRes := Storage.DeletePeer f st.storage peer.ID
    let wgRes := Wireguard.UnsetPeer f st.wg peer
    let poolRes := IPPool.Unset st.pool ip
    let st1 : ManagerState :=
      { st with
        storage := exceptState st.storage delRes
        wg := exceptState st.wg wgRes
        pool := poolRes.1 }
    let st2 := pushEvent st1 EventType.PeerRemove peer
    some ⟨st2, peer,
      firstErr [exceptErr delRes, poolRes.2, exceptErr wgRes]⟩

/-- `Manager.setPeer` (internal.go:85-141): reject an expired peer;
allocate an address when the argument has none, otherwise reserve the
supplied one; create the storage row; program WireGuard.  On any error,
roll back: unconditionally release `*peer.Ipv4` when set, and delete the
storage row when `peer.ID > 0`.  On success push `PeerAdd`. -/
def setPeer (f : Faults) (now : Int) (st : ManagerState) (peer : PeerInfo) :
    OpResult :=
  -- the rollback of internal.go:122-133, applied to the state and the
  -- (already mutated) peer at the point of failure
  let fail : ManagerState → PeerInfo → Err → OpResult := fun st' peer' e =>
    let st1 : ManagerState :=
      match peer'.Ipv4 with
      | some ip => { st' with pool := (IPPool.Unset st'.pool ip).1 }
      | none => st'
    let st2 : ManagerState :=
      if peer'.ID > 0 then
        match Storage.DeletePeer f st1.storage peer'.ID with
        | Except.ok s2 => { st1 with storage := s2 }
        | Except.error _ => st1
      else st1
    ⟨st2, peer', some e⟩
  if peer.Expired now then
    fail st peer (Err.InvalidArgument "peer already expired")
  else
    let ipStep : Except Err (ManagerState × PeerInfo) :=
      match peer.Ipv4 with
      | none =>
        match IPPool.Alloc st.pool peer.GetNetworkPolicy with
        | Except.error e => Except.error e
        | Except.ok (ip, pool') =>
          Except.ok ({ st with pool := pool' }, { peer with Ipv4 := some ip })
      | some ip =>
        match IPPool.Set st.pool ip peer.GetNetworkPolicy with
        | Except.error e => Except.error e
        | Except.ok pool' => Except.ok ({ st with pool := pool' }, peer)
    match ipStep with
    | Except.error e => fail st peer e
    | Except.ok (st1, peer1) =>
      match Storage.CreatePeer f st1.storage peer1 with
      | Except.error e => fail st1 peer1 e
      | Except.ok (id, storage') =>
        let st2 := { st1 with storage := storage' }
        let peer2 := { peer1 with ID := id }
        match Wireguard.SetPeer f st2.wg peer2 with
        | Except.error e => fail st2 peer2 e
        | Except.ok wg' =>
          let st3 := pushEvent { st2 with wg := wg' } EventType.PeerAdd peer2
          ⟨st3, peer2, none⟩

/-- `Manager.updatePeer` (internal.go:145-238).  An expired record
degenerates to `unsetPeer`.  Otherwise: load the old record; reconcile
the address (allocate when unset, falling back to the old address if
allocation fails; reserve a supplied address when it differs from the
old one); persist with a refreshed `updated` stamp; reprogram WireGuard
(remove the old entry first when the public key changed, and on failure
of the new programming try to reinstate the old entry — whose own result
then becomes the step's error).  On error, revert the database row, the
new address reservation, and the WireGuard entry, as far as each phase
had completed.  `none` models the Go nil-pointer panics on
`*oldPeer.Ipv4`, `*oldPeer.WireguardPublicKey`,
`*newPeer.WireguardPublicKey` and inside `unsetPeer`. -/
def updatePeer (f : Faults) (now : Int) (st : ManagerState)
    (newPeer : PeerInfo) : Option OpResult :=
  if newPeer.Expired now then unsetPeer f st newPeer
  else
    match Storage.GetPeer st.storage newPeer.ID with
    | Except.error e => some ⟨st, newPeer, some e⟩
    | Except.ok oldPeer =>
      -- the inner closure of internal.go:156-209:
      -- (state, peer, ipOK, dbOK, wgOK, err), or a panic
      let inner : Option (ManagerState × PeerInfo × Bool × Bool × Bool ×
          Option Err) :=
        let ipRes : Option (Except Err (ManagerState × PeerInfo)) :=
          match newPeer.Ipv4 with
          | none =>
            match IPPool.Alloc st.pool newPeer.GetNetworkPolicy with
            | Except.error _ =>
              -- allocation failure is swallowed: fall back to the old IP
              some (Except.ok (st, { newPeer with Ipv4 := oldPeer.Ipv4 }))
            | Except.ok (ip, pool') =>
              some (Except.ok ({ st with pool := pool' },
                { newPeer with Ipv4 := some ip }))
          | some nip =>
            match oldPeer.Ipv4 with
            | none => none
            | some oip =>
              if nip = oip then some (Except.ok (st, newPeer))
              else
                match IPPool.Set st.pool nip newPeer.GetNetworkPolicy with
                | Except.error e => some (Except.error e)
                | Except.ok pool' =>
                  some (Except.ok ({ st with pool := pool' }, newPeer))
        match ipRes with
        | none => none
        | some (Except.error e) => some (st, newPeer, false, false, false, some e)
        | some (Except.ok (st1, p1)) =>
          let p2 := { p1 with Updated := some now }
          match Storage.UpdatePeer f st1.storage p2 with
          | Except.error e => some (st1, p2, true, false, false, some e)
          | Except.ok (id, storage') =>
            let st2 := { st1 with storage := storage' }
            let p3 := { p2 with ID := id }
            match oldPeer.WireguardPublicKey, p3.WireguardPublicKey with
            | some oldKey, some newKey =>
              let unsetStep : Except Err ManagerState :=
                if oldKey ≠ newKey then
                  match Wireguard.UnsetPeer f st2.wg oldPeer with
                  | Except.error e => Except.error e
                  | Except.ok wg' => Except.ok { st2 with wg := wg' }
                else Except.ok st2
              match unsetStep with
              | Except.error e => some (st2, p3, true, true, false, some e)
              | Except.ok st3 =>
                match Wireguard.SetPeer f st3.wg p3 with
                | Except.error _ =>
                  -- "trying to revert old": the revert result replaces
                  -- the error, so a successful revert reads as success
                  (match Wireguard.SetPeer f st3.wg oldPeer with
                   | Except.error e2 =>
                     some (st3, p3, true, true, false, some e2)
                   | Except.ok wg2 =>
                     some ({ st3 with wg := wg2 }, p3, true, true, false,
                       none))
                | Except.ok wg' =>
                  some ({ st3 with wg := wg' }, p3, true, true, true, none)
            | _, _ => none
      match inner with
      | none => none
      | some (stI, pI, ipOK, dbOK, wgOK, errI) =>
        match errI with
        | none => some ⟨pushEvent stI EventType.PeerUpdate pI, pI, none⟩
        | some e =>
          -- reverting back (internal.go:212-229)
          let stA : ManagerState :=
            if dbOK then
              match Storage.UpdatePeer f stI.storage oldPeer with
              | Except.ok (_, s') => { stI with storage := s' }
              | Except.error _ => stI
            else stI
          let stBopt : Option ManagerState :=
            if ipOK then
              match pI.Ipv4, oldPeer.Ipv4 with
              | some a, some b =>
                some (if a ≠ b then
                    { stA with pool := (IPPool.Unset stA.pool a).1 }
                  else stA)
              | _, _ => none
            else some stA
          match stBopt with
          | none => none
          | some stB =>
            let stC : ManagerState :=
              if wgOK then
                let wg1 := exceptState stB.wg (Wireguard.UnsetPeer f stB.wg pI)
                let wg2 := exceptState wg1 (Wireguard.SetPeer f wg1 oldPeer)
                { stB with wg := wg2 }
              else stB
            some ⟨stC, pI, some e⟩

/-- `Manager.findPeerByIdentifiers` (internal.go:240-263). -/
def findPeerByIdentifiers (f : Faults) (st : ManagerState)
    (identifiers : Option PeerIdentifiers) : Except Err PeerInfo :=
  match identifiers with
  | none => Except.error (Err.InvalidArgument "no identifiers")
  | some ids =>
    let peerQuery : PeerInfo :=
      { UserId := ids.UserId, InstallationId := ids.InstallationId,
        SessionId := ids.SessionId }
    match Storage.SearchPeers f st.storage (some peerQuery) with
    | Except.error e => Except.error e
    | Except.ok peers =>
      if peers.length = 0 then
        Except.error (Err.EntryNotFound "peer not found")
      else if peers.length > 1 then
        Except.error (Err.InvalidArgument "not enough identifiers to update peer")
      else Except.ok (peers.headI)

/-- The `Unavailable` error every public operation returns while the
server is shutting down. -/
def shuttingDown : Err := Err.Unavailable "server is shutting down"

/-- `Manager.SetPeer` (peers.go:15-24): running-flag gate, then
`setPeer`. -/
def SetPeer (f : Faults) (now : Int) (st : ManagerState) (info : PeerInfo) :
    OpResult :=
  if !st.running then ⟨st, info, some shuttingDown⟩
  else setPeer f now st info

/-- `Manager.UpdatePeer` (peers.go:26-33): running-flag gate, then
`updatePeer`. -/
def UpdatePeer (f : Faults) (now : Int) (st : ManagerState)
    (info : PeerInfo) : Option OpResult :=
  if !st.running then some ⟨st, info, some shuttingDown⟩
  else updatePeer f now st info

/-- `Manager.GetPeer` (peers.go:35-43): running-flag gate, then a
read-through to storage. -/
def GetPeer (st : ManagerState) (id : Int) :
    ManagerState × Except Err PeerInfo :=
  if !st.running then (st, Except.error shuttingDown)
  else (st, Storage.GetPeer st.storage id)

/-- `Manager.UnsetPeer` (peers.go:45-58): running-flag gate, fetch the
row, then `unsetPeer`. -/
def UnsetPeer (f : Faults) (st : ManagerState) (id : Int) :
    Option (ManagerState × Option Err) :=
  if !st.running then some (st, some shuttingDown)
  else
    match Storage.GetPeer st.storage id with
    | Except.error e => some (st, some e)
    | Except.ok info =>
      (unsetPeer f st info).map (fun r => (r.st, r.err))

/-- `Manager.UnsetPeerByIdentifiers` (peers.go:60-73): running-flag gate,
find the unique matching peer, then `unsetPeer`. -/
def UnsetPeerByIdentifiers (f : Faults) (st : ManagerState)
    (identifiers : Option PeerIdentifiers) :
    Option (ManagerState × Option Err) :=
  if !st.running then some (st, some shuttingDown)
  else
    match findPeerByIdentifiers f st identifiers with
    | Except.error e => some (st, some e)
    | Except.ok info =>
      (unsetPeer f st info).map (fun r => (r.st, r.err))

/-- `Manager.ListPeers` (peers.go:75-83): running-flag gate, then a nil
search. -/
def ListPeers (f : Faults) (st : ManagerState) :
    ManagerState × Except Err (List PeerInfo) :=
  if !st.running then (st, Except.error shuttingDown)
  else (st, Storage.SearchPeers f st.storage none)

/-- The query `ConnectPeer` builds (peers.go:92-97): only the user id and
installation id of the argument are carried over. -/
def connectShadow (info : PeerInfo) : PeerInfo :=
  { UserId := info.UserId, InstallationId := info.InstallationId }

/-- `Manager.ConnectPeer` (peers.go:85-116): running-flag gate; search by
the `(user_id, installation_id)` tuple; create when nothing matches,
update (with the stored id and address copied in) when exactly one row
matches, and fail with an internal error on an ambiguous match. -/
def ConnectPeer (f : Faults) (now : Int) (st : ManagerState)
    (info : PeerInfo) : Option OpResult :=
  if !st.running then some ⟨st, info, some shuttingDown⟩
  else
    match Storage.SearchPeers f st.storage (some (connectShadow info)) with
    | Except.error e => some ⟨st, info, some e⟩
    | Except.ok oldPeers =>
      if oldPeers.length = 0 then some (setPeer f now st info)
      else if oldPeers.length > 1 then
        some ⟨st, info, some (Err.InternalError "too many peers for identifiers")⟩
      else
        updatePeer f now st
          { info with ID := oldPeers.headI.ID, Ipv4 := oldPeers.headI.Ipv4 }

/-- `Manager.UpdatePeerExpiration` (peers.go:118-148): rejects nil
identifiers, then the running-flag gate, then finds the unique matching
peer, stamps the new expiration and runs `updatePeer` on it. -/
def UpdatePeerExpiration (f : Faults) (now : Int) (st : ManagerState)
    (identifiers : Option PeerIdentifiers) (expires : Option Int) :
    Option OpResult :=
  match identifiers with
  | none => some ⟨st, {}, some (Err.InvalidArgument "no identifiers")⟩
  | some ids =>
    if !st.running then some ⟨st, {}, some shuttingDown⟩
    else
      let peerQuery : PeerInfo :=
        { UserId := ids.UserId, InstallationId := ids.InstallationId,
          SessionId := ids.SessionId }
      match Storage.SearchPeers f st.storage (some peerQuery) with
      | Except.error e => some ⟨st, {}, some e⟩
      | Except.ok peers =>
        if peers.length = 0 then
          some ⟨st, {}, some (Err.EntryNotFound "peer not found")⟩
        else if peers.length > 1 then
          some ⟨st, {}, some (Err.InvalidArgument "not enough identifiers to update peer")⟩
        else
          updatePeer f now st { peers.headI with Expires := expires }

end Manager

/-! ## Statistics cache update (internal.go:317-332)

The tail of `updatePeerStats`, the background sweep body: integrate the
delta between the current link-stat sample and the previous one into the
cumulative counters and replace the cached snapshot.  Counters on the
wire are Go `uint64`; the cumulative counters are Go `int64`. -/

/-- `wireguard.GetLinkStatistic()` sample (§6).  Field values are
`uint64` (theorems carry explicit `< 2^64` bounds where relevant). -/
structure LinkStatistic where
  RxBytes : Nat := 0
  RxPackets : Nat := 0
  TxBytes : Nat := 0
  TxPackets : Nat := 0
deriving DecidableEq, Repr

/-- `manager.CachedStatistics`: the snapshot the sweep replaces. -/
structure CachedStatistics where
  PeersTotal : Int := 0
  PeersWithTraffic : Int := 0
  PeersActiveLastHour : Int := 0
  PeersActiveLastDay : Int := 0
  LinkStat : Option LinkStatistic := none
  Upstream : Int := 0
  Downstream : Int := 0
deriving DecidableEq, Repr

/-- The classification results `statsService.UpdatePeerStats` returns
(§4.2).  Only the counters feed the snapshot; the peer lists drive the
eviction/event loops that precede it. -/
structure UpdatePeerStatsResults where
  NumPeers : Int := 0
  NumPeersWithHadshakes : Int := 0
  NumPeersActiveLastHour : Int := 0
  NumPeersActiveLastDay : Int := 0
  ExpiredPeers : List PeerInfo := []
  UpdatedPeers : List PeerInfo := []
deriving DecidableEq, Repr

/-- internal.go:317-332: `diffUpstream := linkStats.RxBytes` minus the
previous sample when one is cached (`uint64` wrap-around subtraction),
converted by `int64(...)` and added to the running `int64` total; same
for downstream with `TxBytes`. -/
def updateStatistic (stat : CachedStatistics) (linkStats : LinkStatistic)
    (results : UpdatePeerStatsResults) : CachedStatistics :=
  let diffUpstream : Nat :=
    match stat.LinkStat with
    | none => linkStats.RxBytes % w64
    | some prev => u64sub linkStats.RxBytes prev.RxBytes
  let diffDownstream : Nat :=
    match stat.LinkStat with
    | none => linkStats.TxBytes % w64
    | some prev => u64sub linkStats.TxBytes prev.TxBytes
  { PeersTotal := results.NumPeers
    PeersWithTraffic := results.NumPeersWithHadshakes
    PeersActiveLastHour := results.NumPeersActiveLastHour
    PeersActiveLastDay := results.NumPeersActiveLastDay
    LinkStat := some linkStats
    Upstream := i64add stat.Upstream (u64toI64 diffUpstream)
    Downstream := i64add stat.Downstream (u64toI64 diffDownstream) }

/-! ## Traffic event sender (events.go) -/

/-- Insert-or-replace in an association list keyed by public key (the Go
`map[string]*types.PeerInfo` assignment); keys stay distinct. -/
def mapInsert (k : PubKey) (v : PeerInfo)
    (l : List (PubKey × PeerInfo)) : List (PubKey × PeerInfo) :=
  (k, v) :: l.filter (fun kv => kv.1 ≠ k)

/-- Deletion from the association list (the Go `delete`). -/
def mapErase (k : PubKey) (l : List (PubKey × PeerInfo)) :
    List (PubKey × PeerInfo) :=
  l.filter (fun kv => kv.1 ≠ k)

/-- `peerTrafficUpdateEventSender` (events.go:30-44): config thresholds
(`int64`), the delta budget (`trafficState`, `int64` accumulators), the
baseline and pending maps, and the event sink it pushes to.  The send
interval, ticker goroutine and mutex are not modelled (sequential
embedding). -/
structure SenderState where
  maxUpstreamBytes : Int := 0
  maxDownstreamBytes : Int := 0
  UpstreamBytesChange : Int := 0
  DownstreamBytesChange : Int := 0
  peers : List (PubKey × PeerInfo) := []
  updatedPeers : List (PubKey × PeerInfo) := []
  events : List Event := []
deriving DecidableEq, Repr

namespace Sender

/-- `Add` (events.go:78-85): no-op for a peer without a public key, else
insert into the baseline map. -/
def Add (s : SenderState) (peer : PeerInfo) : SenderState :=
  match peer.WireguardPublicKey with
  | none => s
  | some k => { s with peers := mapInsert k peer s.peers }

/-- `Remove` (events.go:87-96): no-op for a peer without a public key,
else delete from the baseline map. -/
def Remove (s : SenderState) (peer : PeerInfo) : SenderState :=
  match peer.WireguardPublicKey with
  | none => s
  | some k =>
    if (s.peers.lookup k).isSome then { s with peers := mapErase k s.peers }
    else s

/-- `sendUpdates` (events.go:127-145): nothing to do when no peer is
pending; otherwise push one `PeerTraffic` event per pending entry, clear
the pending map and reset both delta budgets. -/
def sendUpdates (s : SenderState) : SenderState :=
  if s.updatedPeers.length = 0 then s
  else
    { s with
      events := s.events ++
        s.updatedPeers.map (fun kv => ⟨EventType.PeerTraffic, kv.2⟩)
      updatedPeers := []
      UpstreamBytesChange := 0
      DownstreamBytesChange := 0 }

/-- The accumulation loop of `Send` (events.go:102-117): for each
submitted peer found in the baseline, add the counter deltas (when both
sides carry counters) to the budgets — Go `int64` arithmetic — and
overwrite both the pending and the baseline entry.  `none` models the
unguarded `*peer.WireguardPublicKey` dereference: a submitted peer
without a key crashes the call. -/
def sendAccumulate (s : SenderState) : List PeerInfo → Option SenderState
  | [] => some s
  | peer :: rest =>
    match peer.WireguardPublicKey with
    | none => none
    | some k =>
      match s.peers.lookup k with
      | none => sendAccumulate s rest
      | some oldPeer =>
        let up : Int :=
          match peer.Upstream, oldPeer.Upstream with
          | some a, some b => i64add s.UpstreamBytesChange (i64sub a b)
          | _, _ => s.UpstreamBytesChange
        let down : Int :=
          match peer.Downstream, oldPeer.Downstream with
          | some a, some b => i64add s.DownstreamBytesChange (i64sub a b)
          | _, _ => s.DownstreamBytesChange
        sendAccumulate
          { s with
            UpstreamBytesChange := up
            DownstreamBytesChange := down
            updatedPeers := mapInsert k peer s.updatedPeers
            peers := mapInsert k peer s.peers } rest

/-- `Send` (events.go:98-125): accumulate the batch, then flush
immediately when a positive threshold is exceeded by its budget. -/
def Send (s : SenderState) (batch : List PeerInfo) : Option SenderState :=
  (sendAccumulate s batch).map (fun s2 =>
    if s2.maxUpstreamBytes > 0 ∧
        s2.UpstreamBytesChange > s2.maxUpstreamBytes then sendUpdates s2
    else if s2.maxDownstreamBytes > 0 ∧
        s2.DownstreamBytesChange > s2.maxDownstreamBytes then sendUpdates s2
    else s2)

end Sender

/-! ## Invariant of the traffic sender

Budgets only ever change together with an insertion into
`updatedPeers`, and both are cleared together by a flush; hence in every
reachable sender state an empty pending map implies zero budgets. -/

/-- Reachable-state invariant of the traffic sender: when no peer is
pending, both delta budgets are zero. -/
def SenderInv (s : SenderState) : Prop :=
  s.updatedPeers = [] →
    s.UpstreamBytesChange = 0 ∧ s.DownstreamBytesChange = 0

instance (s : SenderState) : Decidable (SenderInv s) := by
  unfold SenderInv
  infer_instance

/-! ## Concrete inputs for witnesses and counterexamples -/

/-- No injected collaborator faults. -/
def fNone : Faults := {}

/-- A peer record with no WireGuard public key. -/
def keylessPeer : PeerInfo := { UserId := some "u1" }

/-- The freshly constructed sender (empty maps, zero budgets). -/
def senderEmpty : SenderState := {}

/-- A live peer occupying address 5 with key K1 (owner of the
reservation that claim C10's scenario releases). -/
def residentPeer : PeerInfo :=
  { ID := 1, UserId := some "u1", InstallationId := some "i1",
    WireguardPublicKey := some "K1", Ipv4 := some 5 }

/-- Manager state with `residentPeer` fully live: one storage row,
address 5 reserved, key K1 on the interface. -/
def stResident : ManagerState :=
  { storage := ⟨[(1, residentPeer)], 2⟩
    pool := ⟨[5, 6], [5]⟩
    wg := ⟨["K1"]⟩ }

/-- A second client supplying the already-reserved address 5. -/
def intruderPeer : PeerInfo :=
  { UserId := some "u2", InstallationId := some "i2",
    WireguardPublicKey := some "K2", Ipv4 := some 5 }

/-- The stored record of the peer whose address is changed in the
update scenarios: id 1, address 5, key K. -/
def updOldPeer : PeerInfo :=
  { ID := 1, UserId := some "u1", InstallationId := some "i1",
    WireguardPublicKey := some "K", Ipv4 := some 5 }

/-- Manager state with `updOldPeer` live and address 6 still free. -/
def stUpd : ManagerState :=
  { storage := ⟨[(1, updOldPeer)], 2⟩
    pool := ⟨[5, 6], [5]⟩
    wg := ⟨["K"]⟩ }

/-- The update request moving peer 1 from address 5 to address 6. -/
def updNewPeer : PeerInfo :=
  { ID := 1, UserId := some "u1", InstallationId := some "i1",
    WireguardPublicKey := some "K", Ipv4 := some 6 }

/-- The snapshot after a first sweep whose link-stat sample reads 100
received bytes. -/
def statSweep1 : CachedStatistics :=
  updateStatistic {} { RxBytes := 100 } {}

/-- The snapshot after a second sweep whose sample reads 0 received
bytes (the interface counter was reset between the ticks). -/
def statSweep2 : CachedStatistics :=
  updateStatistic statSweep1 { RxBytes := 0 } {}

/-- Manager state for the removal-error scenario: the row of
`updOldPeer` exists, but its address is not reserved in the pool. -/
def stRemove : ManagerState :=
  { storage := ⟨[(1, updOldPeer)], 2⟩
    pool := ⟨[5], []⟩
    wg := ⟨["K"]⟩ }

/-- Faults making `wireguard.UnsetPeer` fail for key K. -/
def fWgUnsetK : Faults := { wgUnsetFailKeys := ["K"] }

/-- Faults making `wireguard.SetPeer` fail for key K (the "WireGuard
stubbed to fail on SetPeer" scenario). -/
def fWgSetK : Faults := { wgSetFailKeys := ["K"] }

/-- Manager state for the create-rollback scenario: empty storage and
interface, address 5 free. -/
def stCreate : ManagerState := { pool := ⟨[5], []⟩ }

/-- The create request of the rollback scenario (no address supplied). -/
def createPeerArg : PeerInfo :=
  { UserId := some "u1", InstallationId := some "i1",
    WireguardPublicKey := some "K" }

/-- A manager that is shutting down. -/
def stStopped : ManagerState := { running := false }

/-- A concrete identifier tuple. -/
def idsU1 : PeerIdentifiers :=
  { UserId := some "u1", InstallationId := some "i1", SessionId := none }

/-- A baseline peer with zero upstream counter, key K. -/
def basePeerK : PeerInfo :=
  { ID := 1, WireguardPublicKey := some "K", Upstream := some 0,
    Downstream := some 0 }

/-- The same peer observed with 1500 upstream bytes. -/
def grownPeerK : PeerInfo :=
  { ID := 1, WireguardPublicKey := some "K", Upstream := some 1500,
    Downstream := some 0 }

/-- Sender configured with a 1000-byte upstream threshold and `basePeerK`
in its baseline. -/
def senderThreshold : SenderState :=
  { maxUpstreamBytes := 1000, peers := [("K", basePeerK)] }

/-- A sender state with one pending peer and a non-zero budget. -/
def senderPending : SenderState :=
  { UpstreamBytesChange := 7, peers := [("K", basePeerK)],
    updatedPeers := [("K", basePeerK)] }

/-! # Theorems -/

/-- C10: when `SetPeer` is called with a caller-supplied IPv4 and a later
step fails — here the pool reservation itself, because address 5 is
already reserved by the live peer `residentPeer` — the rollback
unconditionally calls `Unset` on that address, so the failed call
releases the other peer's reservation instead of leaving the pool
unchanged. -/
theorem c10_failed_setPeer_releases_foreign_reservation :
    5 ∈ stResident.pool.reserved ∧
    stResident.storage.rows.lookup 1 = some residentPeer ∧
    residentPeer.Ipv4 = some 5 ∧
    (Manager.SetPeer fNone 100 stResident intruderPeer).err =
      some Err.AlreadyReserved ∧
    (Manager.SetPeer fNone 100 stResident intruderPeer).st.pool.reserved
      = [] := by
  decide

/-- C3: the cached cumulative upstream counter is NOT non-decreasing for
every sequence of link-stat samples: a sample lower than its predecessor
(a counter reset) makes the `uint64` difference wrap to a huge value
whose `int64` reinterpretation is negative, decreasing `Upstream`.
Concretely, samples 100 then 0 drive the counter from 100 back to 0. -/
theorem c3_counterexample_upstream_decreases :
    statSweep1.Upstream = 100 ∧ statSweep2.Upstream = 0 ∧
    statSweep2.Upstream < statSweep1.Upstream := by
  decide

/-- C3 (amended): across consecutive sweeps the cached cumulative
upstream counter is non-decreasing provided the new link-stat sample's
`RxBytes` is at least the previous sample's (no counter reset), the
delta fits below `2^63`, and the running `int64` total does not
overflow. -/
theorem c3_upstream_monotone_amended
    (stat : CachedStatistics) (prev cur : LinkStatistic)
    (results : UpdatePeerStatsResults)
    (hprev : stat.LinkStat = some prev)
    (hcb : cur.RxBytes < w64)
    (hmono : prev.RxBytes ≤ cur.RxBytes)
    (hdelta : cur.RxBytes - prev.RxBytes < w63)
    (hlow : 0 ≤ stat.Upstream)
    (hhigh : stat.Upstream + ((cur.RxBytes - prev.RxBytes : Nat) : Int)
      < (w63 : Int)) :
    stat.Upstream ≤ (updateStatistic stat cur results).Upstream := by
  have hpb : prev.RxBytes < w64 := lt_of_le_of_lt hmono hcb
  have hsub : u64sub cur.RxBytes prev.RxBytes
      = cur.RxBytes - prev.RxBytes := by
    simp only [u64sub, w64] at *
    omega
  have hcast : u64toI64 (cur.RxBytes - prev.RxBytes)
      = ((cur.RxBytes - prev.RxBytes : Nat) : Int) := by
    have hm : (cur.RxBytes - prev.RxBytes) % w64
        = cur.RxBytes - prev.RxBytes := by
      simp only [w64, w63] at *
      omega
    simp only [u64toI64, hm, if_pos hdelta]
  have hadd : i64add stat.Upstream
        ((cur.RxBytes - prev.RxBytes : Nat) : Int)
      = stat.Upstream + ((cur.RxBytes - prev.RxBytes : Nat) : Int) := by
    simp only [w63] at hhigh
    simp only [i64add, w63, w64]
    omega
  simp only [updateStatistic, hprev]
  rw [hsub, hcast, hadd]
  have : (0 : Int) ≤ ((cur.RxBytes - prev.RxBytes : Nat) : Int) :=
    Int.natCast_nonneg _
  omega

/-- C3 (amended) witness: the monotonicity theorem applied to the first
concrete sweep snapshot and a larger second sample. -/
theorem c3_upstream_monotone_amended_witness :
    statSweep1.LinkStat = some { RxBytes := 100 } ∧
    statSweep1.Upstream ≤
      (updateStatistic statSweep1 { RxBytes := 250 } {}).Upstream :=
  ⟨by decide,
   c3_upstream_monotone_amended statSweep1 { RxBytes := 100 }
     { RxBytes := 250 } {} (by decide) (by decide) (by decide)
     (by decide) (by decide) (by decide)⟩

/-- C4: the claim that EVERY public operation returns
`Unavailable("server is shutting down")` for every argument when the
running flag is unset fails on `UpdatePeerExpiration`: it checks its
identifiers argument for nil BEFORE the running flag, so with nil
identifiers and the flag unset it returns `InvalidArgument`. -/
theorem c4_counterexample_nil_identifiers_beats_flag :
    stStopped.running = false ∧
    (Manager.UpdatePeerExpiration fNone 0 stStopped none (some 5)).map
      OpResult.err
      = some (some (Err.InvalidArgument "no identifiers")) ∧
    Err.InvalidArgument "no identifiers" ≠ Manager.shuttingDown := by
  decide

/-- C4 (amended): with the running flag unset, `SetPeer`, `UpdatePeer`,
`GetPeer`, `UnsetPeer`, `UnsetPeerByIdentifiers`, `ListPeers`,
`ConnectPeer` return `Unavailable("server is shutting down")` for every
argument and leave the state untouched, as does `UpdatePeerExpiration`
for every non-nil identifiers argument; with nil identifiers
`UpdatePeerExpiration` instead returns `InvalidArgument("no
identifiers")` even while shutting down. -/
theorem c4_running_flag_gate_amended (f : Faults) (now : Int)
    (st : ManagerState) (info : PeerInfo) (id : Int)
    (ids : PeerIdentifiers) (oids : Option PeerIdentifiers)
    (expires : Option Int)
    (hrun : st.running = false) :
    Manager.SetPeer f now st info
      = ⟨st, info, some Manager.shuttingDown⟩ ∧
    Manager.UpdatePeer f now st info
      = some ⟨st, info, some Manager.shuttingDown⟩ ∧
    Manager.GetPeer st id = (st, Except.error Manager.shuttingDown) ∧
    Manager.UnsetPeer f st id = some (st, some Manager.shuttingDown) ∧
    Manager.UnsetPeerByIdentifiers f st oids
      = some (st, some Manager.shuttingDown) ∧
    Manager.ListPeers f st = (st, Except.error Manager.shuttingDown) ∧
    Manager.ConnectPeer f now st info
      = some ⟨st, info, some Manager.shuttingDown⟩ ∧
    Manager.UpdatePeerExpiration f now st (some ids) expires
      = some ⟨st, {}, some Manager.shuttingDown⟩ ∧
    Manager.UpdatePeerExpiration f now st none expires
      = some ⟨st, {}, some (Err.InvalidArgument "no identifiers")⟩ := by
  refine ⟨?_, ?_, ?_, ?_, ?_, ?_, ?_, ?_, ?_⟩ <;>
    simp [Manager.SetPeer, Manager.UpdatePeer, Manager.GetPeer,
      Manager.UnsetPeer, Manager.UnsetPeerByIdentifiers,
      Manager.ListPeers, Manager.ConnectPeer,
      Manager.UpdatePeerExpiration, hrun]

/-- C4 (amended) witness: the gate theorem applied to the concrete
stopped manager. -/
theorem c4_running_flag_gate_amended_witness :
    stStopped.running = false ∧
    Manager.SetPeer fNone 0 stStopped createPeerArg
      = ⟨stStopped, createPeerArg, some Manager.shuttingDown⟩ ∧
    Manager.UpdatePeer fNone 0 stStopped createPeerArg
      = some ⟨stStopped, createPeerArg, some Manager.shuttingDown⟩ ∧
    Manager.GetPeer stStopped 1
      = (stStopped, Except.error Manager.shuttingDown) ∧
    Manager.UnsetPeer fNone stStopped 1
      = some (stStopped, some Manager.shuttingDown) ∧
    Manager.UnsetPeerByIdentifiers fNone stStopped (some idsU1)
      = some (stStopped, some Manager.shuttingDown) ∧
    Manager.ListPeers fNone stStopped
      = (stStopped, Except.error Manager.shuttingDown) ∧
    Manager.ConnectPeer fNone 0 stStopped createPeerArg
      = some ⟨stStopped, createPeerArg, some Manager.shuttingDown⟩ ∧
    Manager.UpdatePeerExpiration fNone 0 stStopped (some idsU1) none
      = some ⟨stStopped, {}, some Manager.shuttingDown⟩ ∧
    Manager.UpdatePeerExpiration fNone 0 stStopped none none
      = some ⟨stStopped, {}, some (Err.InvalidArgument "no identifiers")⟩ := by
  have h := c4_running_flag_gate_amended fNone 0 stStopped createPeerArg 1
    idsU1 (some idsU1) none (by decide)
  exact ⟨by decide, h.1, h.2.1, h.2.2.1, h.2.2.2.1, h.2.2.2.2.1,
    h.2.2.2.2.2.1, h.2.2.2.2.2.2.1, h.2.2.2.2.2.2.2.1, h.2.2.2.2.2.2.2.2⟩

/-- C8: the claim that `unsetPeer` returns the first non-nil error among
the three collaborator results in the order it lists the removals
(storage row, WireGuard entry, pool address) fails: in a state where the
storage delete succeeds while both the WireGuard removal and the pool
release fail, the code returns the POOL error, not the WireGuard one,
because the closure receives `(errManager, errPool, errWireguard)`. -/
theorem c8_counterexample_error_priority :
    exceptErr (Storage.DeletePeer fWgUnsetK stRemove.storage updOldPeer.ID)
      = none ∧
    exceptErr (Wireguard.UnsetPeer fWgUnsetK stRemove.wg updOldPeer)
      = some Err.WgError ∧
    (IPPool.Unset stRemove.pool 5).2 = some Err.NotReserved ∧
    firstErr [none, some Err.WgError, some Err.NotReserved]
      = some Err.WgError ∧
    (Manager.unsetPeer fWgUnsetK stRemove updOldPeer).map OpResult.err
      = some (some Err.NotReserved) ∧
    Err.NotReserved ≠ Err.WgError := by
  decide

/-- C8 (amended): `unsetPeer` always attempts all three removals —
each subsystem ends in the state its own call produced, regardless of
the other two results — pushes `PeerRemove`, and returns the first
non-nil error of the three collaborator results taken in the order
storage, pool, WireGuard (not in execution order), or nil when all three
succeed. -/
theorem c8_unsetPeer_best_effort_amended (f : Faults)
    (st : ManagerState) (p : PeerInfo) (ip : IPv4)
    (hip : p.Ipv4 = some ip) :
    Manager.unsetPeer f st p = some
      ⟨pushEvent
        { st with
          storage := exceptState st.storage
            (Storage.DeletePeer f st.storage p.ID)
          wg := exceptState st.wg (Wireguard.UnsetPeer f st.wg p)
          pool := (IPPool.Unset st.pool ip).1 }
        EventType.PeerRemove p,
       p,
       firstErr [exceptErr (Storage.DeletePeer f st.storage p.ID),
         (IPPool.Unset st.pool ip).2,
         exceptErr (Wireguard.UnsetPeer f st.wg p)]⟩ := by
  simp only [Manager.unsetPeer, hip]

/-- C8 (amended) witness: the amended theorem at the concrete
removal-error state, where it yields the pool error. -/
theorem c8_unsetPeer_best_effort_amended_witness :
    updOldPeer.Ipv4 = some 5 ∧
    Manager.unsetPeer fWgUnsetK stRemove updOldPeer = some
      ⟨pushEvent
        { stRemove with
          storage := exceptState stRemove.storage
            (Storage.DeletePeer fWgUnsetK stRemove.storage updOldPeer.ID)
          wg := exceptState stRemove.wg
            (Wireguard.UnsetPeer fWgUnsetK stRemove.wg updOldPeer)
          pool := (IPPool.Unset stRemove.pool 5).1 }
        EventType.PeerRemove updOldPeer,
       updOldPeer,
       firstErr [exceptErr
           (Storage.DeletePeer fWgUnsetK stRemove.storage updOldPeer.ID),
         (IPPool.Unset stRemove.pool 5).2,
         exceptErr
           (Wireguard.UnsetPeer fWgUnsetK stRemove.wg updOldPeer)]⟩ :=
  ⟨by decide,
   c8_unsetPeer_best_effort_amended fWgUnsetK stRemove updOldPeer 5
     (by decide)⟩

/-- Submitting a batch that contains a peer with no public key crashes
`sendAccumulate` (the unguarded dereference), regardless of where the
peer sits in the batch. -/
theorem sendAccumulate_keyless_crashes (p : PeerInfo)
    (hkey : p.WireguardPublicKey = none) :
    ∀ (batch : List PeerInfo) (s : SenderState), p ∈ batch →
      Sender.sendAccumulate s batch = none := by
  intro batch
  induction batch with
  | nil => intro s h; cases h
  | cons q rest ih =>
    intro s hmem
    rcases List.mem_cons.mp hmem with hq | hrest
    · subst hq
      simp only [Sender.sendAccumulate, hkey]
    · cases hq : q.WireguardPublicKey with
      | none => simp only [Sender.sendAccumulate, hq]
      | some k =>
        simp only [Sender.sendAccumulate, hq]
        cases hl : s.peers.lookup k with
        | none => exact ih _ hrest
        | some oldPeer => exact ih _ hrest

/-- C9: the traffic sender's `Send` dereferences each submitted peer's
public key without a nil guard, so a batch containing a peer whose key
is unset crashes the call (modelled as `none`), whereas `Add` and
`Remove` return with no effect for such a peer. -/
theorem c9_send_keyless_crashes_add_remove_noop (s : SenderState)
    (p : PeerInfo) (batch : List PeerInfo)
    (hkey : p.WireguardPublicKey = none) (hmem : p ∈ batch) :
    Sender.Send s batch = none ∧
    Sender.Add s p = s ∧ Sender.Remove s p = s := by
  refine ⟨?_, ?_, ?_⟩
  · rw [Sender.Send, sendAccumulate_keyless_crashes p hkey batch s hmem]
    rfl
  · simp only [Sender.Add, hkey]
  · simp only [Sender.Remove, hkey]

/-- C9 witness: one keyless peer submitted to the fresh sender. -/
theorem c9_send_keyless_crashes_add_remove_noop_witness :
    keylessPeer.WireguardPublicKey = none ∧
    Sender.Send senderEmpty [keylessPeer] = none ∧
    Sender.Add senderEmpty keylessPeer = senderEmpty ∧
    Sender.Remove senderEmpty keylessPeer = senderEmpty :=
  ⟨by decide,
   (c9_send_keyless_crashes_add_remove_noop senderEmpty keylessPeer
     [keylessPeer] (by decide) (by decide)).1,
   (c9_send_keyless_crashes_add_remove_noop senderEmpty keylessPeer
     [keylessPeer] (by decide) (by decide)).2.1,
   (c9_send_keyless_crashes_add_remove_noop senderEmpty keylessPeer
     [keylessPeer] (by decide) (by decide)).2.2⟩

/-- What one flush does, in any state satisfying the sender invariant:
one `PeerTraffic` event per pending entry, pending map cleared, both
budgets zero afterwards. -/
theorem sendUpdates_flush_spec (s : SenderState) (hinv : SenderInv s) :
    (Sender.sendUpdates s).events = s.events ++
      s.updatedPeers.map (fun kv => Event.mk EventType.PeerTraffic kv.2) ∧
    (Sender.sendUpdates s).updatedPeers = [] ∧
    (Sender.sendUpdates s).UpstreamBytesChange = 0 ∧
    (Sender.sendUpdates s).DownstreamBytesChange = 0 := by
  unfold Sender.sendUpdates
  by_cases h : s.updatedPeers.length = 0
  · have hemp : s.updatedPeers = [] := List.length_eq_zero.mp h
    rcases hinv hemp with ⟨h1, h2⟩
    simp [h, hemp, h1, h2]
  · simp [h]

/-- The accumulation loop never touches the event sink or the
configured thresholds. -/
theorem sendAccumulate_const :
    ∀ (batch : List PeerInfo) (s s2 : SenderState),
      Sender.sendAccumulate s batch = some s2 →
      s2.events = s.events ∧
      s2.maxUpstreamBytes = s.maxUpstreamBytes ∧
      s2.maxDownstreamBytes = s.maxDownstreamBytes := by
  intro batch
  induction batch with
  | nil =>
    intro s s2 h
    simp only [Sender.sendAccumulate, Option.some_inj] at h
    subst h
    exact ⟨rfl, rfl, rfl⟩
  | cons q rest ih =>
    intro s s2 h
    simp only [Sender.sendAccumulate] at h
    cases hq : q.WireguardPublicKey with
    | none =>
      simp only [hq] at h
      exact Option.noConfusion h
    | some k =>
      simp only [hq] at h
      cases hl : s.peers.lookup k with
      | none => simp only [hl] at h; exact ih _ _ h
      | some oldPeer =>
        simp only [hl] at h
        have hres := ih _ _ h
        exact hres

/-- The accumulation loop preserves the sender invariant: every budget
change comes with an insertion into the pending map. -/
theorem sendAccumulate_inv :
    ∀ (batch : List PeerInfo) (s s2 : SenderState), SenderInv s →
      Sender.sendAccumulate s batch = some s2 → SenderInv s2 := by
  intro batch
  induction batch with
  | nil =>
    intro s s2 hinv h
    simp only [Sender.sendAccumulate, Option.some_inj] at h
    subst h
    exact hinv
  | cons q rest ih =>
    intro s s2 hinv h
    simp only [Sender.sendAccumulate] at h
    cases hq : q.WireguardPublicKey with
    | none =>
      simp only [hq] at h
      exact Option.noConfusion h
    | some k =>
      simp only [hq] at h
      cases hl : s.peers.lookup k with
      | none => simp only [hl] at h; exact ih _ _ hinv h
      | some oldPeer =>
        simp only [hl] at h
        refine ih _ _ ?_ h
        intro hemp
        exact absurd hemp (by simp [mapInsert])

/-- `Add` preserves the sender invariant (it only touches the baseline
map). -/
theorem senderInv_add (s : SenderState) (p : PeerInfo)
    (hinv : SenderInv s) : SenderInv (Sender.Add s p) := by
  unfold Sender.Add
  cases p.WireguardPublicKey <;> exact hinv

/-- `Remove` preserves the sender invariant. -/
theorem senderInv_remove (s : SenderState) (p : PeerInfo)
    (hinv : SenderInv s) : SenderInv (Sender.Remove s p) := by
  cases hq : p.WireguardPublicKey with
  | none =>
    simp only [Sender.Remove, hq]
    exact hinv
  | some k =>
    simp only [Sender.Remove, hq]
    by_cases hl : (List.lookup k s.peers).isSome = true
    · rw [if_pos hl]
      exact hinv
    · rw [if_neg hl]
      exact hinv

/-- A flush re-establishes the sender invariant. -/
theorem senderInv_sendUpdates (s : SenderState) (hinv : SenderInv s) :
    SenderInv (Sender.sendUpdates s) := by
  unfold Sender.sendUpdates
  by_cases h : s.updatedPeers.length = 0
  · rw [if_pos h]
    exact hinv
  · rw [if_neg h]
    intro _
    exact ⟨rfl, rfl⟩

/-- `Send` preserves the sender invariant when it returns. -/
theorem senderInv_send (s s2 : SenderState) (batch : List PeerInfo)
    (hinv : SenderInv s) (h : Sender.Send s batch = some s2) :
    SenderInv s2 := by
  unfold Sender.Send at h
  cases hacc : Sender.sendAccumulate s batch with
  | none => rw [hacc] at h; exact Option.noConfusion h
  | some s1 =>
    rw [hacc] at h
    have heq := Option.some.inj h
    have hinv1 := sendAccumulate_inv batch s s1 hinv hacc
    subst heq
    show SenderInv
      (if s1.maxUpstreamBytes > 0 ∧
          s1.UpstreamBytesChange > s1.maxUpstreamBytes then
        Sender.sendUpdates s1
      else if s1.maxDownstreamBytes > 0 ∧
          s1.DownstreamBytesChange > s1.maxDownstreamBytes then
        Sender.sendUpdates s1
      else s1)
    by_cases h1 : s1.maxUpstreamBytes > 0 ∧
        s1.UpstreamBytesChange > s1.maxUpstreamBytes
    · rw [if_pos h1]
      exact senderInv_sendUpdates s1 hinv1
    · rw [if_neg h1]
      by_cases h2 : s1.maxDownstreamBytes > 0 ∧
          s1.DownstreamBytesChange > s1.maxDownstreamBytes
      · rw [if_pos h2]
        exact senderInv_sendUpdates s1 hinv1
      · rw [if_neg h2]
        exact hinv1

/-- The freshly constructed sender satisfies the invariant. -/
theorem senderInv_init : SenderInv senderEmpty := by
  decide

/-- C6: in any sender state satisfying the reachable-state invariant, a
flush of the traffic event sender emits exactly one `PeerTraffic` event
per entry pending at flush start, and afterwards both delta budgets are
zero and the pending map is empty. -/
theorem c6_flush_one_event_per_pending_then_reset (s : SenderState)
    (hinv : SenderInv s) :
    (Sender.sendUpdates s).events = s.events ++
      s.updatedPeers.map (fun kv => Event.mk EventType.PeerTraffic kv.2) ∧
    (Sender.sendUpdates s).updatedPeers = [] ∧
    (Sender.sendUpdates s).UpstreamBytesChange = 0 ∧
    (Sender.sendUpdates s).DownstreamBytesChange = 0 :=
  sendUpdates_flush_spec s hinv

/-- C6 witness: the flush theorem at a concrete state with one pending
peer and a non-zero budget. -/
theorem c6_flush_one_event_per_pending_then_reset_witness :
    SenderInv senderPending ∧
    ((Sender.sendUpdates senderPending).events =
      senderPending.events ++ senderPending.updatedPeers.map
        (fun kv => Event.mk EventType.PeerTraffic kv.2) ∧
    (Sender.sendUpdates senderPending).updatedPeers = [] ∧
    (Sender.sendUpdates senderPending).UpstreamBytesChange = 0 ∧
    (Sender.sendUpdates senderPending).DownstreamBytesChange = 0) :=
  ⟨by decide, c6_flush_one_event_per_pending_then_reset senderPending
    (by decide)⟩

/-- C7: after `Send` finishes accumulating a batch, a flush happens
within the same call exactly when a positive upstream threshold is
exceeded by the upstream budget or a positive downstream threshold is
exceeded by the downstream budget; with no positive-and-exceeded
threshold nothing is flushed (in particular non-positive thresholds
never trigger), and no event is emitted by the call. -/
theorem c7_send_flushes_iff_threshold_exceeded (s s2 : SenderState)
    (batch : List PeerInfo) (hinv : SenderInv s)
    (hacc : Sender.sendAccumulate s batch = some s2) :
    (((s2.maxUpstreamBytes > 0 ∧
        s2.UpstreamBytesChange > s2.maxUpstreamBytes) ∨
      (s2.maxDownstreamBytes > 0 ∧
        s2.DownstreamBytesChange > s2.maxDownstreamBytes)) →
      Sender.Send s batch = some (Sender.sendUpdates s2) ∧
      (Sender.sendUpdates s2).updatedPeers = [] ∧
      (Sender.sendUpdates s2).UpstreamBytesChange = 0 ∧
      (Sender.sendUpdates s2).DownstreamBytesChange = 0) ∧
    (¬ ((s2.maxUpstreamBytes > 0 ∧
        s2.UpstreamBytesChange > s2.maxUpstreamBytes) ∨
      (s2.maxDownstreamBytes > 0 ∧
        s2.DownstreamBytesChange > s2.maxDownstreamBytes)) →
      Sender.Send s batch = some s2 ∧ s2.events = s.events) := by
  have hinv2 := sendAccumulate_inv batch s s2 hinv hacc
  have hsend : Sender.Send s batch = some
      (if s2.maxUpstreamBytes > 0 ∧
          s2.UpstreamBytesChange > s2.maxUpstreamBytes then
        Sender.sendUpdates s2
      else if s2.maxDownstreamBytes > 0 ∧
          s2.DownstreamBytesChange > s2.maxDownstreamBytes then
        Sender.sendUpdates s2
      else s2) := by
    rw [Sender.Send, hacc]
    rfl
  constructor
  · intro hcond
    have hflush : Sender.Send s batch = some (Sender.sendUpdates s2) := by
      rw [hsend]
      rcases hcond with h1 | h2
      · rw [if_pos h1]
      · by_cases h1 : s2.maxUpstreamBytes > 0 ∧
            s2.UpstreamBytesChange > s2.maxUpstreamBytes
        · rw [if_pos h1]
        · rw [if_neg h1, if_pos h2]
    have hspec := sendUpdates_flush_spec s2 hinv2
    exact ⟨hflush, hspec.2.1, hspec.2.2.1, hspec.2.2.2⟩
  · intro hncond
    have h1 : ¬ (s2.maxUpstreamBytes > 0 ∧
        s2.UpstreamBytesChange > s2.maxUpstreamBytes) :=
      fun h => hncond (Or.inl h)
    have h2 : ¬ (s2.maxDownstreamBytes > 0 ∧
        s2.DownstreamBytesChange > s2.maxDownstreamBytes) :=
      fun h => hncond (Or.inr h)
    rw [hsend, if_neg h1, if_neg h2]
    exact ⟨rfl, (sendAccumulate_const batch s s2 hacc).1⟩

/-- C7 witness: the spec's threshold-flush scenario — threshold 1000,
baseline counter 0, submitted counter 1500 — flushes within the call. -/
theorem c7_send_flushes_iff_threshold_exceeded_witness :
    SenderInv senderThreshold ∧
    (Sender.sendAccumulate senderThreshold [grownPeerK]).isSome = true ∧
    Sender.Send senderThreshold [grownPeerK] = some
      (Sender.sendUpdates
        ((Sender.sendAccumulate senderThreshold [grownPeerK]).getD
          senderEmpty)) := by
  refine ⟨by decide, by decide, ?_⟩
  have h := c7_send_flushes_iff_threshold_exceeded senderThreshold
    ((Sender.sendAccumulate senderThreshold [grownPeerK]).getD senderEmpty)
    [grownPeerK] (by decide) (by decide)
  exact (h.1 (by decide)).1

/-- Nothing survives a filter that removes exactly its own key. -/
theorem not_mem_filter_ne {α : Type} [DecidableEq α] (l : List α) (a : α) :
    a ∉ l.filter (fun x => x ≠ a) := by
  intro h
  have := (List.mem_filter.mp h).2
  simp at this

/-- C1: whenever the public `SetPeer` returns an error, no storage row,
no pool reservation for the attempted address, and no WireGuard entry
for the attempted public key survive the rollback.  Hypotheses: the
manager is running (shutdown rejection never touches state but also
rolls nothing back), the argument is unpersisted (`ID = 0`, as every
create is), storage assigns fresh positive ids, the rollback delete is
not itself faulted, and the attempted key was not already on the
interface on behalf of some other peer. -/
theorem c1_failed_setPeer_leaves_no_trace (f : Faults) (now : Int)
    (st : ManagerState) (p : PeerInfo)
    (hrun : st.running = true)
    (hdel : f.storageDeleteFails = false)
    (hid : p.ID = 0)
    (hnext : 1 ≤ st.storage.nextId)
    (hfresh : ∀ kv ∈ st.storage.rows, kv.1 ≠ st.storage.nextId)
    (hwg : ∀ k, p.WireguardPublicKey = some k → k ∉ st.wg.peers)
    (herr : (Manager.SetPeer f now st p).err ≠ none) :
    (Manager.SetPeer f now st p).st.storage.rows = st.storage.rows ∧
    (∀ ip, (Manager.SetPeer f now st p).peer.Ipv4 = some ip →
      ip ∉ (Manager.SetPeer f now st p).st.pool.reserved) ∧
    (∀ k, (Manager.SetPeer f now st p).peer.WireguardPublicKey = some k →
      k ∉ (Manager.SetPeer f now st p).st.wg.peers) := by
  have hpub : Manager.SetPeer f now st p = Manager.setPeer f now st p := by
    simp [Manager.SetPeer, hrun]
  rw [hpub] at herr ⊢
  by_cases hexp : p.Expired now = true
  · -- expired argument: state untouched except the unconditional Unset
    cases hip : p.Ipv4 with
    | none =>
      have hres : Manager.setPeer f now st p
          = ⟨st, p, some (Err.InvalidArgument "peer already expired")⟩ := by
        simp [Manager.setPeer, hexp, hip, hid]
      rw [hres]
      refine ⟨rfl, ?_, ?_⟩
      · intro ip h
        rw [hip] at h
        exact Option.noConfusion h
      · intro k hk
        exact hwg k hk
    | some ip0 =>
      have hres : Manager.setPeer f now st p
          = ⟨{ st with pool := (IPPool.Unset st.pool ip0).1 }, p,
             some (Err.InvalidArgument "peer already expired")⟩ := by
        simp [Manager.setPeer, hexp, hip, hid]
      rw [hres]
      refine ⟨rfl, ?_, ?_⟩
      · intro ip h
        rw [hip] at h
        cases h
        exact not_mem_filter_ne _ _
      · intro k hk
        exact hwg k hk
  · -- live argument
    cases hip : p.Ipv4 with
    | none =>
      -- address must be allocated
      cases halloc : IPPool.Alloc st.pool p.GetNetworkPolicy with
      | error e =>
        have hres : Manager.setPeer f now st p = ⟨st, p, some e⟩ := by
          simp [Manager.setPeer, hexp, hip, halloc, hid]
        rw [hres]
        refine ⟨rfl, ?_, ?_⟩
        · intro ip h
          rw [hip] at h
          exact Option.noConfusion h
        · intro k hk
          exact hwg k hk
      | ok pr =>
        obtain ⟨ip0, pool1⟩ := pr
        by_cases hcf : f.storageCreateFails = true
        · -- storage create fails: release the allocated address
          have hres : Manager.setPeer f now st p
              = ⟨{ st with pool := (IPPool.Unset pool1 ip0).1 },
                 { p with Ipv4 := some ip0 }, some Err.StorageError⟩ := by
            simp [Manager.setPeer, hexp, hip, halloc, hid,
              Storage.CreatePeer, hcf]
          rw [hres]
          refine ⟨rfl, ?_, ?_⟩
          · intro ip h
            simp only [Option.some_inj] at h
            subst h
            exact not_mem_filter_ne _ _
          · intro k hk
            exact hwg k hk
        · -- storage create succeeds; WireGuard must fail, else no error
          have hcf2 : f.storageCreateFails = false :=
            Bool.not_eq_true _ ▸ eq_false_of_ne_true hcf
          cases hk : p.WireguardPublicKey with
          | none =>
            have hres : Manager.setPeer f now st p
                = ⟨{ st with
                      pool := (IPPool.Unset pool1 ip0).1
                      storage := ⟨((st.storage.nextId, { p with Ipv4 := some ip0, ID := st.storage.nextId }) ::
                          st.storage.rows).filter
                          (fun kv => kv.1 ≠ st.storage.nextId),
                        st.storage.nextId + 1⟩ },
                   { p with Ipv4 := some ip0, ID := st.storage.nextId },
                   some Err.WgError⟩ := by
              simp [Manager.setPeer, hexp, hip, halloc, hid, hcf2, hdel,
                Storage.CreatePeer, Storage.DeletePeer, Wireguard.SetPeer,
                hk, show (0 : Int) < st.storage.nextId by omega]
            rw [hres]
            refine ⟨?_, ?_, ?_⟩
            · show List.filter _ _ = _
              rw [List.filter_cons]
              simp only [decide_not, ne_eq, decide_True, Bool.not_true,
                decide_eq_true_eq]
              rw [if_neg (by simp)]
              exact List.filter_eq_self.mpr
                (fun kv hkv => by simpa using hfresh kv hkv)
            · intro ip h
              simp only [Option.some_inj] at h
              subst h
              exact not_mem_filter_ne _ _
            · intro k hkk
              exact hwg k hkk
          | some k0 =>
            by_cases hwf : f.wgSetFailKeys.contains k0 = true
            · have hres : Manager.setPeer f now st p
                  = ⟨{ st with
                        pool := (IPPool.Unset pool1 ip0).1
                        storage := ⟨((st.storage.nextId, { p with Ipv4 := some ip0, ID := st.storage.nextId }) ::
                            st.storage.rows).filter
                            (fun kv => kv.1 ≠ st.storage.nextId),
                          st.storage.nextId + 1⟩ },
                     { p with Ipv4 := some ip0, ID := st.storage.nextId },
                     some Err.WgError⟩ := by
                have hwf2 : k0 ∈ f.wgSetFailKeys := by simpa using hwf
                simp [Manager.setPeer, hexp, hip, halloc, hid, hcf2, hdel,
                  Storage.CreatePeer, Storage.DeletePeer,
                  Wireguard.SetPeer, hk, hwf2,
                  show (0 : Int) < st.storage.nextId by omega]
              rw [hres]
              refine ⟨?_, ?_, ?_⟩
              · show List.filter _ _ = _
                rw [List.filter_cons]
                simp only [decide_not, ne_eq, decide_True, Bool.not_true,
                  decide_eq_true_eq]
                rw [if_neg (by simp)]
                exact List.filter_eq_self.mpr
                  (fun kv hkv => by simpa using hfresh kv hkv)
              · intro ip h
                simp only [Option.some_inj] at h
                subst h
                exact not_mem_filter_ne _ _
              · intro k hkk
                exact hwg k hkk
            · -- every step succeeded: contradiction with the error
              exfalso
              apply herr
              have hwf2 : k0 ∉ f.wgSetFailKeys := by simpa using hwf
              simp [Manager.setPeer, hexp, hip, halloc, hid, hcf2,
                Storage.CreatePeer, Wireguard.SetPeer, hk, hwf2]
    | some ip0 =>
      -- caller-supplied address
      cases hset : IPPool.Set st.pool ip0 p.GetNetworkPolicy with
      | error e =>
        have hres : Manager.setPeer f now st p
            = ⟨{ st with pool := (IPPool.Unset st.pool ip0).1 }, p,
               some e⟩ := by
          simp [Manager.setPeer, hexp, hip, hset, hid]
        rw [hres]
        refine ⟨rfl, ?_, ?_⟩
        · intro ip h
          rw [hip] at h
          simp only [Option.some_inj] at h
          subst h
          exact not_mem_filter_ne _ _
        · intro k hk
          exact hwg k hk
      | ok pool1 =>
        by_cases hcf : f.storageCreateFails = true
        · have hres : Manager.setPeer f now st p
              = ⟨{ st with pool := (IPPool.Unset pool1 ip0).1 }, p,
                 some Err.StorageError⟩ := by
            simp [Manager.setPeer, hexp, hip, hset, hid,
              Storage.CreatePeer, hcf]
          rw [hres]
          refine ⟨rfl, ?_, ?_⟩
          · intro ip h
            rw [hip] at h
            simp only [Option.some_inj] at h
            subst h
            exact not_mem_filter_ne _ _
          · intro k hk
            exact hwg k hk
        · have hcf2 : f.storageCreateFails = false :=
            Bool.not_eq_true _ ▸ eq_false_of_ne_true hcf
          cases hk : p.WireguardPublicKey with
          | none =>
            have hres : Manager.setPeer f now st p
                = ⟨{ st with
                      pool := (IPPool.Unset pool1 ip0).1
                      storage := ⟨((st.storage.nextId, { p with ID := st.storage.nextId }) ::
                          st.storage.rows).filter
                          (fun kv => kv.1 ≠ st.storage.nextId),
                        st.storage.nextId + 1⟩ },
                   { p with ID := st.storage.nextId },
                   some Err.WgError⟩ := by
              simp [Manager.setPeer, hexp, hip, hset, hid, hcf2, hdel,
                Storage.CreatePeer, Storage.DeletePeer, Wireguard.SetPeer,
                hk, show (0 : Int) < st.storage.nextId by omega]
            rw [hres]
            refine ⟨?_, ?_, ?_⟩
            · show List.filter _ _ = _
              rw [List.filter_cons]
              simp only [decide_not, ne_eq, decide_True, Bool.not_true,
                decide_eq_true_eq]
              rw [if_neg (by simp)]
              exact List.filter_eq_self.mpr
                (fun kv hkv => by simpa using hfresh kv hkv)
            · intro ip h
              rw [hip] at h
              simp only [Option.some_inj] at h
              subst h
              exact not_mem_filter_ne _ _
            · intro k hkk
              exact hwg k hkk
          | some k0 =>
            by_cases hwf : f.wgSetFailKeys.contains k0 = true
            · have hres : Manager.setPeer f now st p
                  = ⟨{ st with
                        pool := (IPPool.Unset pool1 ip0).1
                        storage := ⟨((st.storage.nextId, { p with ID := st.storage.nextId }) ::
                            st.storage.rows).filter
                            (fun kv => kv.1 ≠ st.storage.nextId),
                          st.storage.nextId + 1⟩ },
                     { p with ID := st.storage.nextId },
                     some Err.WgError⟩ := by
                have hwf2 : k0 ∈ f.wgSetFailKeys := by simpa using hwf
                simp [Manager.setPeer, hexp, hip, hset, hid, hcf2, hdel,
                  Storage.CreatePeer, Storage.DeletePeer,
                  Wireguard.SetPeer, hk, hwf2,
                  show (0 : Int) < st.storage.nextId by omega]
              rw [hres]
              refine ⟨?_, ?_, ?_⟩
              · show List.filter _ _ = _
                rw [List.filter_cons]
                simp only [decide_not, ne_eq, decide_True, Bool.not_true,
                  decide_eq_true_eq]
                rw [if_neg (by simp)]
                exact List.filter_eq_self.mpr
                  (fun kv hkv => by simpa using hfresh kv hkv)
              · intro ip h
                rw [hip] at h
                simp only [Option.some_inj] at h
                subst h
                exact not_mem_filter_ne _ _
              · intro k hkk
                exact hwg k hkk
            · exfalso
              apply herr
              have hwf2 : k0 ∉ f.wgSetFailKeys := by simpa using hwf
              simp [Manager.setPeer, hexp, hip, hset, hid, hcf2,
                Storage.CreatePeer, Wireguard.SetPeer, hk, hwf2]

/-- C1 witness: the create-rollback scenario — WireGuard stubbed to fail
on `SetPeer` — applied to the rollback theorem. -/
theorem c1_failed_setPeer_leaves_no_trace_witness :
    (Manager.SetPeer fWgSetK 100 stCreate createPeerArg).err ≠ none ∧
    ((Manager.SetPeer fWgSetK 100 stCreate createPeerArg).st.storage.rows
      = stCreate.storage.rows ∧
    (∀ ip, (Manager.SetPeer fWgSetK 100 stCreate createPeerArg).peer.Ipv4
        = some ip →
      ip ∉ (Manager.SetPeer fWgSetK 100 stCreate
        createPeerArg).st.pool.reserved) ∧
    (∀ k, (Manager.SetPeer fWgSetK 100 stCreate
        createPeerArg).peer.WireguardPublicKey = some k →
      k ∉ (Manager.SetPeer fWgSetK 100 stCreate
        createPeerArg).st.wg.peers)) :=
  ⟨by decide,
   c1_failed_setPeer_leaves_no_trace fWgSetK 100 stCreate createPeerArg
     (by decide) (by decide) (by decide) (by decide) (by decide)
     (by intro k hk; simp [createPeerArg] at hk; subst hk; decide)
     (by decide)⟩

/-- A successful specific reservation prepends the address to the
reserved list. -/
theorem ipPoolSet_ok_reserved (pool pool2 : IPPool) (ip : IPv4)
    (pol : Nat) (h : IPPool.Set pool ip pol = Except.ok pool2) :
    pool2.reserved = ip :: pool.reserved := by
  unfold IPPool.Set at h
  split at h
  · exact Except.noConfusion h
  · split at h
    · exact Except.noConfusion h
    · rw [← Except.ok.inj h]

/-- C2: the claim that a successful `UpdatePeer` changing the address
releases the old address's pool reservation fails: `updatePeer` never
calls `Unset` on the old address, so after the concrete successful
update moving peer 1 from address 5 to address 6, address 5 is still
reserved. -/
theorem c2_counterexample_old_ip_not_released :
    Storage.GetPeer stUpd.storage updNewPeer.ID = Except.ok updOldPeer ∧
    updOldPeer.Ipv4 = some 5 ∧ updNewPeer.Ipv4 = some 6 ∧
    updNewPeer.Expired 100 = false ∧
    (Manager.UpdatePeer fNone 100 stUpd updNewPeer).map OpResult.err
      = some none ∧
    (Manager.UpdatePeer fNone 100 stUpd updNewPeer).map
      (fun r => decide (5 ∈ r.st.pool.reserved)) = some true := by
  decide

/-- C2 (amended): for every successful `UpdatePeer` of a non-expired
peer whose new IPv4 is set and differs from the stored old IPv4, the new
address is validated and reserved in the pool; the old address's pool
reservation is NOT released — it remains reserved after the update. -/
theorem c2_update_reserves_new_keeps_old_amended (f : Faults) (now : Int)
    (st : ManagerState) (newPeer oldPeer : PeerInfo) (a b : IPv4)
    (r : OpResult)
    (hrun : st.running = true)
    (hexp : newPeer.Expired now = false)
    (hold : Storage.GetPeer st.storage newPeer.ID = Except.ok oldPeer)
    (hnew : newPeer.Ipv4 = some b)
    (holdip : oldPeer.Ipv4 = some a)
    (hne : b ≠ a)
    (hres : Manager.UpdatePeer f now st newPeer = some r)
    (hsucc : r.err = none) :
    b ∈ r.st.pool.reserved ∧
    (a ∈ st.pool.reserved → a ∈ r.st.pool.reserved) := by
  have hpub : Manager.UpdatePeer f now st newPeer
      = Manager.updatePeer f now st newPeer := by
    simp [Manager.UpdatePeer, hrun]
  rw [hpub] at hres
  simp only [Manager.updatePeer, hexp, Bool.false_eq_true, if_false,
    hold, hnew, holdip] at hres
  rw [if_neg hne] at hres
  cases hset : IPPool.Set st.pool b newPeer.GetNetworkPolicy with
  | error e =>
    simp [hset, hnew, holdip, hne] at hres
    rw [← hres] at hsucc
    simp at hsucc
  | ok pool1 =>
    have hpool1 : pool1.reserved = b :: st.pool.reserved :=
      ipPoolSet_ok_reserved st.pool pool1 b newPeer.GetNetworkPolicy hset
    simp only [hset, hnew] at hres
    cases hdb : Storage.UpdatePeer f st.storage
        { newPeer with Ipv4 := some b, Updated := some now } with
    | error e =>
      simp [hdb, hnew, holdip, hne] at hres
      rw [← hres] at hsucc
      simp at hsucc
    | ok pr =>
      obtain ⟨id, storage2⟩ := pr
      simp only [hdb] at hres
      cases hok : oldPeer.WireguardPublicKey with
      | none =>
        simp only [hok] at hres
        exact Option.noConfusion hres
      | some oldKey =>
        cases hnk : newPeer.WireguardPublicKey with
        | none =>
          simp only [hok, hnk] at hres
          exact Option.noConfusion hres
        | some newKey =>
          simp only [hok, hnk] at hres
          by_cases hkeq : oldKey = newKey
          · -- same key: plain overwrite of the entry
            rw [if_neg (not_not_intro hkeq)] at hres
            cases hwgs : Wireguard.SetPeer f st.wg
                { newPeer with WireguardPublicKey := some newKey, Ipv4 := some b, Updated := some now, ID := id } with
            | ok wg2 =>
              simp only [hwgs, Option.some_inj] at hres
              rw [← hres]
              refine ⟨by simp [pushEvent, hpool1], ?_⟩
              intro ha
              simp [pushEvent, hpool1]
              exact Or.inr ha
            | error e =>
              simp only [hwgs] at hres
              cases hwgr : Wireguard.SetPeer f st.wg oldPeer with
              | ok wg3 =>
                simp only [hwgr, Option.some_inj] at hres
                rw [← hres]
                refine ⟨by simp [pushEvent, hpool1], ?_⟩
                intro ha
                simp [pushEvent, hpool1]
                exact Or.inr ha
              | error e2 =>
                simp [hwgr, hnew, holdip, hne] at hres
                rw [← hres] at hsucc
                simp at hsucc
          · -- key changed: remove the old entry first
            rw [if_pos hkeq] at hres
            cases hwgu : Wireguard.UnsetPeer f st.wg oldPeer with
            | error e =>
              simp [hwgu, hnew, holdip, hne] at hres
              rw [← hres] at hsucc
              simp at hsucc
            | ok wg2 =>
              simp only [hwgu] at hres
              cases hwgs : Wireguard.SetPeer f wg2
                  { newPeer with WireguardPublicKey := some newKey, Ipv4 := some b, Updated := some now, ID := id } with
              | ok wg3 =>
                simp only [hwgs, Option.some_inj] at hres
                rw [← hres]
                refine ⟨by simp [pushEvent, hpool1], ?_⟩
                intro ha
                simp [pushEvent, hpool1]
                exact Or.inr ha
              | error e =>
                simp only [hwgs] at hres
                cases hwgr : Wireguard.SetPeer f wg2 oldPeer with
                | ok wg3 =>
                  simp only [hwgr, Option.some_inj] at hres
                  rw [← hres]
                  refine ⟨by simp [pushEvent, hpool1], ?_⟩
                  intro ha
                  simp [pushEvent, hpool1]
                  exact Or.inr ha
                | error e2 =>
                  simp [hwgr, hnew, holdip, hne] at hres
                  rw [← hres] at hsucc
                  simp at hsucc

/-- C2 (amended) witness: the concrete successful update moving peer 1
from address 5 to 6 — address 6 reserved, address 5 still reserved. -/
theorem c2_update_reserves_new_keeps_old_amended_witness :
    (Manager.UpdatePeer fNone 100 stUpd updNewPeer).map OpResult.err
      = some none ∧
    (6 ∈ ((Manager.UpdatePeer fNone 100 stUpd updNewPeer).getD
        ⟨stUpd, updNewPeer, none⟩).st.pool.reserved ∧
     (5 ∈ stUpd.pool.reserved →
       5 ∈ ((Manager.UpdatePeer fNone 100 stUpd updNewPeer).getD
         ⟨stUpd, updNewPeer, none⟩).st.pool.reserved)) :=
  ⟨by decide,
   c2_update_reserves_new_keeps_old_amended fNone 100 stUpd updNewPeer
     updOldPeer 5 6
     ((Manager.UpdatePeer fNone 100 stUpd updNewPeer).getD
       ⟨stUpd, updNewPeer, none⟩)
     (by decide) (by decide) (by decide) (by decide) (by decide)
     (by decide) (by decide) (by decide)⟩

/-- C5: `ConnectPeer` searches storage by the `(user_id,
installation_id)` tuple of its argument; with zero matches it performs
`setPeer` on the argument, with exactly one match it copies the stored
id and ipv4 into the argument and performs `updatePeer`, and with more
than one match it returns an internal error leaving the state and the
argument untouched. -/
theorem c5_connectPeer_dispatch (f : Faults) (now : Int)
    (st : ManagerState) (info : PeerInfo) (l : List PeerInfo)
    (hrun : st.running = true)
    (hsearch : Storage.SearchPeers f st.storage
      (some (Manager.connectShadow info)) = Except.ok l) :
    (l = [] → Manager.ConnectPeer f now st info
      = some (Manager.setPeer f now st info)) ∧
    (∀ q, l = [q] → Manager.ConnectPeer f now st info
      = Manager.updatePeer f now st
          { info with ID := q.ID, Ipv4 := q.Ipv4 }) ∧
    (2 ≤ l.length → Manager.ConnectPeer f now st info
      = some ⟨st, info,
          some (Err.InternalError "too many peers for identifiers")⟩) := by
  refine ⟨?_, ?_, ?_⟩
  · intro hl
    subst hl
    simp [Manager.ConnectPeer, hrun, hsearch]
  · intro q hl
    subst hl
    simp [Manager.ConnectPeer, hrun, hsearch]
  · intro hlen
    have h0 : ¬(l.length = 0) := by omega
    have h1 : l.length > 1 := by omega
    simp [Manager.ConnectPeer, hrun, hsearch, h0, h1]

/-- C5 witness: connecting with the identifiers of the one live peer of
the concrete state dispatches to `updatePeer` with the stored id and
address copied in. -/
theorem c5_connectPeer_dispatch_witness :
    Storage.SearchPeers fNone stUpd.storage
      (some (Manager.connectShadow updNewPeer))
      = Except.ok [updOldPeer] ∧
    Manager.ConnectPeer fNone 100 stUpd updNewPeer
      = Manager.updatePeer fNone 100 stUpd
          { updNewPeer with ID := updOldPeer.ID, Ipv4 := updOldPeer.Ipv4 } :=
  ⟨by decide,
   (c5_connectPeer_dispatch fNone 100 stUpd updNewPeer [updOldPeer]
     (by decide) (by decide)).2.1 updOldPeer rfl⟩

end Tunnel
